import Mathlib

/-
Verification of the recurring-reminder scheduling engine.

The engine lives in two near-duplicate bot variants:
`bot_ai.py` (sqlite-backed) and `reminder_bot.py` (in-memory).
The schedule calculator (`next_daily`, `next_every_n_days`,
`next_every_x_hours`), the fire-cycle dispatcher (`send_reminder`,
`job_fire`, `reschedule_after_fire`), the scheduling decision
(`schedule_next`) and the resume callback (`menu_cb`, `resume:` branch)
are embedded as pure Lean functions below.

Modelling conventions:
- UTC instants and local wall-clock datetimes are integer seconds
  (Python datetimes carry microseconds; all comparisons and arithmetic
  in the source are exact, so second granularity is faithful for
  second-aligned values).
- A `ZoneInfo` timezone is modelled as a fixed-offset ruleset
  (`Etc/GMT…`-style zones): `offset` is the zone's UTC offset in
  seconds.  Under a fixed offset, the offset at the reference instant
  and the offset at a resulting local instant coincide, and Python's
  aware-datetime comparison (instant-based) coincides with wall-clock
  comparison.
- Python `//` and `%` on these quantities are floor division and
  nonnegative remainder, which are Lean's `Int` `/` and `%` (`ediv` /
  `emod`).
- `while` loops over datetimes become the well-founded recursion
  `loopAdd`.
-/

/-- A `ZoneInfo` timezone, modelled as a fixed-offset ruleset:
`offset` is the UTC offset in seconds (east positive). -/
structure Tz where
  offset : Int
  deriving DecidableEq

/-- `dt.astimezone(tz)` applied to a UTC instant: the local wall clock. -/
def toLocal (tz : Tz) (t : Int) : Int := t + tz.offset

/-- `dt.astimezone(timezone.utc)` applied to a local wall clock of `tz`. -/
def toUtc (tz : Tz) (l : Int) : Int := l - tz.offset

/-- `.date()` of a local wall clock, as a day number (floor division,
matching Python's calendar date extraction). -/
def localDate (l : Int) : Int := l / 86400

/-- `datetime.combine(d, t, tz)` as a local wall clock: day number `d`
at time-of-day `t` (seconds since local midnight). -/
def combine (d t : Int) : Int := d * 86400 + t

/-- `.replace(minute=0, second=0, microsecond=0)`: floor to the hour. -/
def hourFloor (t : Int) : Int := (t / 3600) * 3600

/-- The `while candidate <= now: candidate += step` loops of
`next_every_n_days` (bot_ai.py lines 87-88 and 91-92).  The `0 < step`
guard makes the recursion well founded; the source validates `N ≥ 1`
before any rule reaches the calculator. -/
def loopAdd (step now cand : Int) : Int :=
  if h : cand ≤ now ∧ 0 < step then loopAdd step now (cand + step) else cand
termination_by (now + 1 - cand).toNat
decreasing_by
  simp_wf
  omega

/-- `next_daily(t_local, tz)` (bot_ai.py lines 71-76), with the
reference instant `datetime.now(tz)` made an explicit argument
`nowUtc`. -/
def next_daily (t_local : Int) (tz : Tz) (nowUtc : Int) : Int :=
  let now_local := toLocal tz nowUtc
  let candidate := combine (localDate now_local) t_local
  let candidate := if candidate ≤ now_local then candidate + 86400 else candidate
  toUtc tz candidate

/-- `next_every_n_days(t_local, n_days, tz, last_run_utc)` (bot_ai.py
lines 78-93), with the reference instant explicit. -/
def next_every_n_days (t_local : Int) (n_days : Nat) (tz : Tz)
    (last_run_utc : Option Int) (nowUtc : Int) : Int :=
  let now_local := toLocal tz nowUtc
  match last_run_utc with
  | some lr =>
      let last_local := toLocal tz lr
      let base_date := localDate (last_local + (n_days : Int) * 86400)
      let candidate := combine base_date t_local
      if candidate ≤ now_local then
        toUtc tz (loopAdd ((n_days : Int) * 86400) now_local
          (combine (localDate now_local) t_local))
      else
        toUtc tz candidate
  | none =>
      toUtc tz (loopAdd ((n_days : Int) * 86400) now_local
        (combine (localDate now_local) t_local))

/-- `next_every_x_hours(x_hours, tz, last_run_utc)` (bot_ai.py lines
95-108), with the reference instant explicit.  The `tz` argument is
accepted and ignored exactly as in the source.  In the anchorless
branch the source computes
`(now + timedelta(minutes=59)).replace(minute=0, second=0, microsecond=0)`. -/
def next_every_x_hours (x_hours : Nat) (tz : Tz)
    (last_run_utc : Option Int) (nowUtc : Int) : Int :=
  match last_run_utc with
  | some lr =>
      let candidate := lr + (x_hours : Int) * 3600
      if candidate ≤ nowUtc then
        let delta := nowUtc - candidate
        let steps := delta / ((x_hours : Int) * 3600) + 1
        candidate + steps * ((x_hours : Int) * 3600)
      else candidate
  | none =>
      hourFloor (nowUtc + 59 * 60)

/-- The `kind` column of the `reminders` table. -/
inductive Kind where
  | once
  | daily
  | every_n_days
  | every_x_hours
  deriving DecidableEq

/-- The `params` JSON of a reminder row; each kind reads only its own
fields (`run_utc` for once, `h`/`m` for daily and every-n-days, `n`,
`x`). -/
structure Params where
  run_utc : Int := 0
  h : Nat := 0
  m : Nat := 0
  n : Nat := 0
  x : Nat := 0
  deriving DecidableEq

/-- The `counters` JSON of a reminder row:
`{"sent", "limit_times", "end_utc", "last_run_utc"}`. -/
structure Counters where
  sent : Nat := 0
  limit_times : Option Nat := none
  end_utc : Option Int := none
  last_run_utc : Option Int := none
  deriving DecidableEq

/-- A row of the `reminders` table (bot_ai.py). -/
structure Reminder where
  kind : Kind
  params : Params
  tz : Tz
  is_paused : Bool := false
  counters : Counters := {}
  deriving DecidableEq

/-- `time(params["h"], params["m"])` as seconds since local midnight. -/
def tod (p : Params) : Int := (p.h : Int) * 3600 + (p.m : Int) * 60

/-- `schedule_next` (bot_ai.py lines 167-209) as the pure scheduling
decision: the row read from the store (`none` when deleted) and the
current instant determine the armed timer instant, or `none` when no
job is armed (missing row, paused row, expired once rule). -/
def schedule_next (row : Option Reminder) (nowUtc : Int) : Option Int :=
  match row with
  | none => none
  | some r =>
      if r.is_paused then none
      else
        match r.kind with
        | Kind.once =>
            if r.params.run_utc ≤ nowUtc then none else some r.params.run_utc
        | Kind.daily => some (next_daily (tod r.params) r.tz nowUtc)
        | Kind.every_n_days =>
            some (next_every_n_days (tod r.params) r.params.n r.tz
              r.counters.last_run_utc nowUtc)
        | Kind.every_x_hours =>
            some (next_every_x_hours r.params.x r.tz
              r.counters.last_run_utc nowUtc)

/-- The `finished` flag computed by `send_reminder` (bot_ai.py lines
240-244) from the pre-fire row: the occurrence counter is incremented
first (`sent + 1`), then `sent >= limit_times` and
`now >= end_utc` are checked. -/
def finishedB (r : Reminder) (nowUtc : Int) : Bool :=
  (match r.counters.limit_times with
   | some lt => decide (lt ≤ r.counters.sent + 1)
   | none => false) ||
  (match r.counters.end_utc with
   | some e => decide (e ≤ nowUtc)
   | none => false)

/-- Observable outcome of one `send_reminder` fire cycle:
whether the notification send was attempted, the counters value the
cycle computed, the row left in the store, and the next armed timer
instant (if any). -/
structure FireResult where
  notified : Bool
  countersOut : Counters
  store : Option Reminder
  armed : Option Int
  deriving DecidableEq

/-- `send_reminder` (bot_ai.py lines 211-259).  `deliveryOk` is the
outcome of `bot.send_message`; the source wraps the send in
`try/except` and only logs a failure, so the flag cannot influence the
rest of the cycle.  The send is attempted before limits are evaluated;
`finished and kind == "once"` deletes the row, `finished` for periodic
kinds sets `is_paused = 1`, otherwise counters are stored and
`schedule_next` arms the following occurrence. -/
def send_reminder (row : Option Reminder) (nowUtc : Int)
    (deliveryOk : Bool) : FireResult :=
  match row with
  | none => ⟨false, {}, none, none⟩
  | some r =>
      let sent := r.counters.sent + 1
      let counters : Counters :=
        { r.counters with sent := sent, last_run_utc := some nowUtc }
      let finished := finishedB r nowUtc
      if finished ∧ r.kind = Kind.once then
        ⟨true, counters, none, none⟩
      else if finished then
        let r' := { r with is_paused := true, counters := counters }
        ⟨true, counters, some r', none⟩
      else
        let r' := { r with counters := counters }
        ⟨true, counters, some r', schedule_next (some r') nowUtc⟩

/-- Outcome of the user-facing resume action. -/
structure ResumeResult where
  store : Option Reminder
  armed : Option Int
  deriving DecidableEq

/-- The `resume:` branch of `menu_cb` (bot_ai.py lines 376-383):
`UPDATE reminders SET is_paused=0` followed by `schedule_next`.  When
the row has been deleted the update touches nothing and
`schedule_next` finds no row. -/
def resume_cb (row : Option Reminder) (nowUtc : Int) : ResumeResult :=
  match row with
  | none => ⟨none, schedule_next none nowUtc⟩
  | some r =>
      let r' := { r with is_paused := false }
      ⟨some r', schedule_next (some r') nowUtc⟩

/-- The `kind` field of `Rem` (reminder_bot.py). -/
inductive Kind2 where
  | once
  | daily
  | n_days
  | x_hours
  deriving DecidableEq

/-- The `Ending.kind` strings of reminder_bot.py:
`"none" | "days" | "times"`. -/
inductive EKind where
  | ekNone
  | ekDays
  | ekTimes
  deriving DecidableEq

/-- The `Ending` dataclass (reminder_bot.py lines 30-34). -/
structure Ending where
  kind : EKind := EKind.ekNone
  days : Nat := 0
  times : Int := 0
  deriving DecidableEq

/-- The `Rem` dataclass (reminder_bot.py lines 36-50).  The `hhmm`
string is modelled by its parsed components `h`/`m`
(`parse_hhmm(rem.hhmm)`). -/
structure Rem where
  kind : Kind2
  tz : Tz
  next_dt : Option Int
  n : Nat := 0
  h : Nat := 0
  m : Nat := 0
  ending : Ending := {}
  left_times : Option Int := none
  end_date : Option Int := none
  paused : Bool := false
  deriving DecidableEq

/-- `base.replace(hour=h, minute=m, second=0, microsecond=0)` on a
local wall clock. -/
def replaceHM (l : Int) (h m : Nat) : Int :=
  combine (localDate l) ((h : Int) * 3600 + (m : Int) * 60)

/-- `reschedule_after_fire` (reminder_bot.py lines 214-229), with the
current instant explicit. -/
def reschedule_after_fire (rem : Rem) (nowUtc : Int) : Rem :=
  let tz := rem.tz
  let now_local := toLocal tz nowUtc
  match rem.kind with
  | Kind2.once => { rem with next_dt := none }
  | Kind2.daily =>
      { rem with
        next_dt := some (toUtc tz (replaceHM now_local rem.h rem.m + 86400)) }
  | Kind2.n_days =>
      let base := match rem.next_dt with
        | some d => toLocal tz d
        | none => now_local
      { rem with
        next_dt := some (toUtc tz (replaceHM base rem.h rem.m + (rem.n : Int) * 86400)) }
  | Kind2.x_hours =>
      let base := match rem.next_dt with
        | some d => d
        | none => nowUtc
      { rem with next_dt := some (base + (rem.n : Int) * 3600) }

/-- Python `rem.left_times or rem.ending.times`: `None` and `0` are
falsy, any other integer is truthy. -/
def truthyOr (o : Option Int) (d : Int) : Int :=
  match o with
  | some v => if v = 0 then d else v
  | none => d

/-- `rem.left_times <= 0` after the decrement (always `some` there). -/
def leZero (o : Option Int) : Bool :=
  match o with
  | some v => decide (v ≤ 0)
  | none => false

/-- `rem.ending.kind == "days" and rem.end_date` followed by
`utcnow().astimezone(rem.tz) >= rem.end_date` (an instant-based
comparison of aware datetimes). -/
def endDatePassed (r : Rem) (nowUtc : Int) : Bool :=
  match r.end_date with
  | some ed => decide (ed ≤ nowUtc)
  | none => false

/-- Observable outcome of one `job_fire` cycle: whether the send was
attempted, the `Rem` left in the chat state (`none` when popped), and
whether a next timer was armed (`schedule_rem` runs iff `rem.next_dt`
is set after rescheduling). -/
structure JobFireResult where
  notified : Bool
  store : Option Rem
  armed : Bool
  deriving DecidableEq

/-- `job_fire` (reminder_bot.py lines 232-268).  A paused rem returns
before sending.  The send is wrapped in `try/except`
(`deliveryOk` cannot influence the rest).  A `times` ending decrements
`left_times` and pops the rem when it reaches zero; a `days` ending
pops once the end date has passed; otherwise
`reschedule_after_fire` runs and `schedule_rem` arms iff `next_dt` is
set. -/
def job_fire (rem0 : Rem) (nowUtc : Int) (deliveryOk : Bool) : JobFireResult :=
  if rem0.paused then ⟨false, some rem0, false⟩
  else
    let rem1 :=
      if rem0.ending.kind = EKind.ekTimes then
        { rem0 with
          left_times := some (truthyOr rem0.left_times rem0.ending.times - 1) }
      else rem0
    if rem1.ending.kind = EKind.ekTimes ∧ leZero rem1.left_times = true then
      ⟨true, none, false⟩
    else if rem1.ending.kind = EKind.ekDays ∧ endDatePassed rem1 nowUtc = true then
      ⟨true, none, false⟩
    else
      let rem2 := reschedule_after_fire rem1 nowUtc
      match rem2.next_dt with
      | some _ => ⟨true, some rem2, true⟩
      | none => ⟨true, some rem2, false⟩

/-- Sample row: a Daily rule with a deadline (end_utc = 50) already in
the past at fire time, used to witness the deadline policy. -/
def sampleDeadlineRule : Reminder :=
  { kind := Kind.daily, params := { h := 9 }, tz := ⟨0⟩,
    counters := { sent := 4, end_utc := some 50 } }

/-- Sample row: a Once rule with no termination policy (counters all
default), target instant 1000. -/
def sampleOnceNoPolicy : Reminder :=
  { kind := Kind.once, params := { run_utc := 1000 }, tz := ⟨0⟩ }

/-- Sample row: the same Once rule with a MaxOccurrences(1) policy. -/
def sampleOnceLimit1 : Reminder :=
  { kind := Kind.once, params := { run_utc := 1000 }, tz := ⟨0⟩,
    counters := { limit_times := some 1 } }

/-- Sample in-memory rem: a fired Once rem (no ending limit). -/
def sampleOnceRem : Rem :=
  { kind := Kind2.once, tz := ⟨0⟩, next_dt := some 500 }

/-- Sample row: a Daily rule that has reached its MaxOccurrences(1)
termination (sent = 1, limit 1) and is therefore marked paused — the
code's representation of a terminated periodic rule. -/
def sampleDoneDaily : Reminder :=
  { kind := Kind.daily, params := { h := 9 }, tz := ⟨0⟩, is_paused := true,
    counters := { sent := 1, limit_times := some 1 } }

theorem toLocal_toUtc (tz : Tz) (l : Int) : toLocal tz (toUtc tz l) = l := by
  simp [toLocal, toUtc]

/-- `next_daily` with its internal lets flattened. -/
theorem next_daily_eq (t_local : Int) (tz : Tz) (nowUtc : Int) :
    next_daily t_local tz nowUtc
      = toUtc tz
          (if combine (localDate (toLocal tz nowUtc)) t_local ≤ toLocal tz nowUtc
           then combine (localDate (toLocal tz nowUtc)) t_local + 86400
           else combine (localDate (toLocal tz nowUtc)) t_local) := rfl

theorem loopAdd_gt (step now cand : Int) (hs : 0 < step) :
    now < loopAdd step now cand := by
  induction cand using loopAdd.induct step now with
  | case1 x h ih => rw [loopAdd, dif_pos h]; exact ih
  | case2 x h => rw [loopAdd, dif_neg h]; omega

theorem loopAdd_multiple (step now cand : Int) :
    ∃ k : Nat, loopAdd step now cand = cand + k * step := by
  induction cand using loopAdd.induct step now with
  | case1 x h ih =>
      obtain ⟨k, hk⟩ := ih
      refine ⟨k + 1, ?_⟩
      rw [loopAdd, dif_pos h, hk]; push_cast; ring
  | case2 x h => exact ⟨0, by rw [loopAdd, dif_neg h]; simp⟩

/-- C10: the EveryXHours next-instant calculation is independent of the
rule's timezone: for every `x_hours`, every anchor (including none) and
every reference instant, any two timezone arguments yield the identical
returned instant — the computation is purely in UTC. -/
theorem C10_theorem (x : Nat) (tz1 tz2 : Tz) (anchor : Option Int) (nowUtc : Int) :
    next_every_x_hours x tz1 anchor nowUtc = next_every_x_hours x tz2 anchor nowUtc := by
  cases anchor <;> rfl

/-- C2 (code bug evaluation): for an EveryXHours rule with no anchor,
`next_every_x_hours` evaluated at a reference instant lying exactly on
a top of hour (100 * 3600 = 360000) returns the reference itself, and
evaluated 30 seconds past the hour returns an instant strictly in the
past — contradicting the spec's uniform strictly-future policy. -/
theorem C2_code_evaluation :
    next_every_x_hours 2 ⟨0⟩ none 360000 = 360000 ∧
    next_every_x_hours 2 ⟨0⟩ none 360030 < 360030 := by
  constructor <;> decide

/-- C1 (counterexample): EveryNDays with N=2, time-of-day 09:00, zone
offset 0, anchor A = day 100 at 09:00 local (8672400), reference =
day 105 at 08:00 local (9100800) — five real days after the anchor.
The computed next instant minus the anchor is NOT a whole multiple of
2 days: the code restarts the cadence from "today" instead of keeping
phase alignment to the anchor. -/
theorem C1_counterexample :
    (next_every_n_days 32400 2 ⟨0⟩ (some 8672400) 9100800 - 8672400) % 172800 ≠ 0 := by
  have h : next_every_n_days 32400 2 ⟨0⟩ (some 8672400) 9100800 = 9104400 := by
    simp [next_every_n_days, toLocal, toUtc, localDate, combine, loopAdd]
  rw [h]
  decide

/-- C5 (counterexample): EveryXHours with X=2, no anchor, in a zone at
UTC offset +05:30 (19800 s), reference local 10:17 (UTC 04:47 =
17220): the computed first instant has local wall clock 10:30, which is
not a top-of-hour slot in the rule's local timezone — the code aligns
to top of hour in UTC, not local time. -/
theorem C5_counterexample :
    (toLocal ⟨19800⟩ (next_every_x_hours 2 ⟨19800⟩ none 17220)) % 3600 ≠ 0 := by
  decide

/-- C5 (amended): for an EveryXHours rule with no anchor, the first
computed instant is the reference rounded to a top-of-hour slot in
UTC — `hourFloor (reference + 59 min)` — independent of the rule's
timezone; whenever the reference lies at least a minute past the hour,
this is the next UTC hour boundary: strictly after the reference and
at most one hour out (not X hours out). -/
theorem C5_amended_theorem (x : Nat) (tz : Tz) (ref : Int)
    (h : 60 ≤ ref % 3600) :
    next_every_x_hours x tz none ref = (ref / 3600 + 1) * 3600 ∧
    ref < next_every_x_hours x tz none ref ∧
    next_every_x_hours x tz none ref ≤ ref + 3600 ∧
    (next_every_x_hours x tz none ref) % 3600 = 0 := by
  have h1 := Int.ediv_add_emod ref 3600
  have h2 := Int.ediv_add_emod (ref + 3540) 3600
  have h3 := Int.emod_nonneg (ref + 3540) (by norm_num : (3600 : Int) ≠ 0)
  have h4 := Int.emod_lt_of_pos (ref + 3540) (by norm_num : (0 : Int) < 3600)
  have h5 := Int.emod_lt_of_pos ref (by norm_num : (0 : Int) < 3600)
  simp only [next_every_x_hours, hourFloor]
  norm_num
  omega

/-- C5 witness: the amended statement instantiated at X=2, the +05:30
zone and the concrete reference 17220 (local 10:17). -/
theorem C5_amended_witness :
    (60 ≤ (17220 : Int) % 3600) ∧
    (next_every_x_hours 2 ⟨19800⟩ none 17220 = ((17220 : Int) / 3600 + 1) * 3600 ∧
     (17220 : Int) < next_every_x_hours 2 ⟨19800⟩ none 17220 ∧
     next_every_x_hours 2 ⟨19800⟩ none 17220 ≤ 17220 + 3600 ∧
     (next_every_x_hours 2 ⟨19800⟩ none 17220) % 3600 = 0) :=
  ⟨by decide, C5_amended_theorem 2 ⟨19800⟩ 17220 (by decide)⟩

/-- C9: a failure of the notification send during a fire cycle is
absorbed: in both dispatcher variants the whole observable outcome of
the cycle (send attempted, counters, stored row, armed timer) is
identical to a successful send, and the occurrence counter is still
incremented exactly once with the last-fired anchor updated. -/
theorem C9_theorem (row : Option Reminder) (r2 : Rem) (nowUtc : Int) :
    send_reminder row nowUtc false = send_reminder row nowUtc true ∧
    job_fire r2 nowUtc false = job_fire r2 nowUtc true ∧
    (∀ r : Reminder, (send_reminder (some r) nowUtc false).countersOut.sent
        = r.counters.sent + 1) ∧
    (∀ r : Reminder, (send_reminder (some r) nowUtc false).countersOut.last_run_utc
        = some nowUtc) := by
  refine ⟨rfl, rfl, ?_, ?_⟩ <;>
    · intro r
      simp only [send_reminder]
      split
      · rfl
      · split <;> rfl

/-- C1 (amended): for an EveryNDays rule with an anchor whose next
candidate (anchor date + N days, at the rule's time-of-day) is not in
the future, the cadence restarts from the current date: the returned
instant is strictly in the future and its local wall clock is today's
date at the time-of-day advanced by a whole number of N-day steps —
it is NOT, in general, phase-aligned to the original anchor. -/
theorem C1_amended_theorem (T : Int) (n : Nat) (tz : Tz) (A nowUtc : Int)
    (hn : 0 < n)
    (hbase : combine (localDate (toLocal tz A + (n : Int) * 86400)) T ≤ toLocal tz nowUtc) :
    nowUtc < next_every_n_days T n tz (some A) nowUtc ∧
    ∃ k : Nat,
      toLocal tz (next_every_n_days T n tz (some A) nowUtc)
        = combine (localDate (toLocal tz nowUtc)) T + (k : Int) * ((n : Int) * 86400) := by
  have hstep : (0 : Int) < (n : Int) * 86400 := by positivity
  have h1 := loopAdd_gt ((n : Int) * 86400) (toLocal tz nowUtc)
    (combine (localDate (toLocal tz nowUtc)) T) hstep
  obtain ⟨k, hk⟩ := loopAdd_multiple ((n : Int) * 86400) (toLocal tz nowUtc)
    (combine (localDate (toLocal tz nowUtc)) T)
  have hres : next_every_n_days T n tz (some A) nowUtc
      = toUtc tz (loopAdd ((n : Int) * 86400) (toLocal tz nowUtc)
          (combine (localDate (toLocal tz nowUtc)) T)) := by
    simp only [next_every_n_days]
    rw [if_pos hbase]
  refine ⟨?_, k, ?_⟩
  · rw [hres]
    simp only [toUtc, toLocal] at h1 ⊢
    omega
  · rw [hres, toLocal_toUtc, hk]

/-- C1 witness: the amended statement at N=2, time-of-day 09:00, zone
offset 0, anchor day 100 at 09:00, reference day 105 at 08:00. -/
theorem C1_amended_witness :
    (0 < 2 ∧
     combine (localDate (toLocal ⟨0⟩ 8672400 + ((2 : Nat) : Int) * 86400)) 32400
       ≤ toLocal ⟨0⟩ 9100800) ∧
    ((9100800 : Int) < next_every_n_days 32400 2 ⟨0⟩ (some 8672400) 9100800 ∧
     ∃ k : Nat,
       toLocal ⟨0⟩ (next_every_n_days 32400 2 ⟨0⟩ (some 8672400) 9100800)
         = combine (localDate (toLocal ⟨0⟩ 9100800)) 32400 + (k : Int) * (((2 : Nat) : Int) * 86400)) :=
  ⟨⟨by decide, by decide⟩,
   C1_amended_theorem 32400 2 ⟨0⟩ 8672400 9100800 (by decide) (by decide)⟩

/-- C6: for an EveryXHours rule with an anchor whose next slot
(anchor + X hours) is not strictly after the reference, the computed
next instant is the anchor plus the smallest integer multiple of X
hours that is strictly after the reference — exactly one slot, never a
burst of catch-up firings. -/
theorem C6_theorem (x : Nat) (tz : Tz) (anchor nowUtc : Int)
    (hx : 0 < x) (hc : anchor + (x : Int) * 3600 ≤ nowUtc) :
    ∃ k : Nat,
      next_every_x_hours x tz (some anchor) nowUtc
          = anchor + (k : Int) * ((x : Int) * 3600) ∧
      nowUtc < next_every_x_hours x tz (some anchor) nowUtc ∧
      ∀ j : Nat, j < k → anchor + (j : Int) * ((x : Int) * 3600) ≤ nowUtc := by
  have hP : (0 : Int) < (x : Int) * 3600 := by positivity
  set P : Int := (x : Int) * 3600 with hPdef
  set delta : Int := nowUtc - (anchor + P) with hdelta
  have hqr := Int.ediv_add_emod delta P
  have hr0 := Int.emod_nonneg delta (ne_of_gt hP)
  have hrP := Int.emod_lt_of_pos delta hP
  have hq0 : 0 ≤ delta / P := Int.ediv_nonneg (by omega) (le_of_lt hP)
  have hres : next_every_x_hours x tz (some anchor) nowUtc
      = anchor + P + (delta / P + 1) * P := by
    simp only [next_every_x_hours]
    rw [if_pos hc]
  refine ⟨(delta / P).toNat + 2, ?_, ?_, ?_⟩
  · rw [hres]
    have : (((delta / P).toNat + 2 : Nat) : Int) = delta / P + 2 := by
      push_cast
      omega
    rw [this]
    ring
  · rw [hres]
    have hgoal : nowUtc = anchor + P + (P * (delta / P) + delta % P) := by omega
    rw [hgoal]
    have hrw : anchor + P + (delta / P + 1) * P = anchor + P + (P * (delta / P) + P) := by
      ring
    rw [hrw]
    omega
  · intro j hj
    have hj' : (j : Int) ≤ delta / P + 1 := by
      have : (j : Int) < ((delta / P).toNat + 2 : Nat) := by exact_mod_cast hj
      push_cast at this
      omega
    have hmul : (j : Int) * P ≤ (delta / P + 1) * P :=
      mul_le_mul_of_nonneg_right hj' (le_of_lt hP)
    have hexp : (delta / P + 1) * P = P * (delta / P) + P := by ring
    omega

/-- C6 witness: X=3 with an anchor two whole intervals in the past
(anchor 0, reference 21600 = anchor + 6 h). -/
theorem C6_witness :
    (0 < 3 ∧ (0 : Int) + ((3 : Nat) : Int) * 3600 ≤ 21600) ∧
    (∃ k : Nat,
      next_every_x_hours 3 ⟨0⟩ (some 0) 21600
          = 0 + (k : Int) * (((3 : Nat) : Int) * 3600) ∧
      (21600 : Int) < next_every_x_hours 3 ⟨0⟩ (some 0) 21600 ∧
      ∀ j : Nat, j < k → (0 : Int) + (j : Int) * (((3 : Nat) : Int) * 3600) ≤ 21600) :=
  ⟨⟨by decide, by decide⟩, C6_theorem 3 ⟨0⟩ 0 21600 (by decide) (by decide)⟩

/-- C7: for a Daily rule with time-of-day T (fixed-offset timezone
model, under which the offset at the reference and at the resulting
local instant coincide): the computed instant is today's local date at
T converted to UTC exactly when the local reference is strictly before
today's T, and tomorrow at T converted to UTC exactly when the local
reference is at or after today's T. -/
theorem C7_theorem (T : Int) (tz : Tz) (nowUtc : Int) :
    (next_daily T tz nowUtc = toUtc tz (combine (localDate (toLocal tz nowUtc)) T)
       ↔ toLocal tz nowUtc < combine (localDate (toLocal tz nowUtc)) T) ∧
    (next_daily T tz nowUtc = toUtc tz (combine (localDate (toLocal tz nowUtc)) T + 86400)
       ↔ combine (localDate (toLocal tz nowUtc)) T ≤ toLocal tz nowUtc) := by
  by_cases hc : combine (localDate (toLocal tz nowUtc)) T ≤ toLocal tz nowUtc
  · rw [next_daily_eq, if_pos hc]
    simp only [toUtc, toLocal] at hc ⊢
    refine ⟨⟨fun h => ?_, fun h => ?_⟩, ?_⟩
    · omega
    · omega
    · simp [hc]
  · rw [next_daily_eq, if_neg hc]
    simp only [toUtc, toLocal] at hc ⊢
    refine ⟨⟨fun h => ?_, fun h => trivial⟩, ⟨fun h => ?_, fun h => absurd h hc⟩⟩
    · omega
    · omega

/-- C8: a Deadline termination policy is evaluated strictly after the
fire: for every rule whose counters carry an `end_utc` deadline, the
fire cycle still attempts the notification and still counts the
occurrence (even when the deadline has already passed), and only then
— when the deadline has passed — terminates the rule (row deleted or
marked paused, no further timer armed). -/
theorem C8_theorem (r : Reminder) (d nowUtc : Int) (ok : Bool)
    (hd : r.counters.end_utc = some d) :
    (send_reminder (some r) nowUtc ok).notified = true ∧
    (send_reminder (some r) nowUtc ok).countersOut.sent = r.counters.sent + 1 ∧
    (d ≤ nowUtc →
      (send_reminder (some r) nowUtc ok).armed = none ∧
      ∀ r'', (send_reminder (some r) nowUtc ok).store = some r'' →
        r''.is_paused = true) := by
  refine ⟨?_, ?_, ?_⟩
  · simp only [send_reminder]
    split
    · rfl
    · split <;> rfl
  · simp only [send_reminder]
    split
    · rfl
    · split <;> rfl
  · intro hle
    have hf : finishedB r nowUtc = true := by
      simp [finishedB, hd, hle]
    by_cases hk : r.kind = Kind.once
    · simp only [send_reminder]
      rw [if_pos ⟨hf, hk⟩]
      exact ⟨rfl, by intro r'' h; cases h⟩
    · simp only [send_reminder]
      rw [if_neg (fun hcon => hk hcon.2), if_pos hf]
      refine ⟨rfl, ?_⟩
      intro r'' h
      cases h
      rfl

/-- C8 witness: a rule with a deadline already passed at the fire
instant (deadline 50, fire at 100) still has its send attempted and
its occurrence counted before the rule is terminated. -/
theorem C8_witness :
    (sampleDeadlineRule.counters.end_utc = some 50) ∧
    ((send_reminder (some sampleDeadlineRule) 100 true).notified = true ∧
     (send_reminder (some sampleDeadlineRule) 100 true).countersOut.sent
       = sampleDeadlineRule.counters.sent + 1 ∧
     ((50 : Int) ≤ 100 →
      (send_reminder (some sampleDeadlineRule) 100 true).armed = none ∧
      ∀ r'', (send_reminder (some sampleDeadlineRule) 100 true).store = some r'' →
        r''.is_paused = true)) :=
  ⟨by decide, C8_theorem sampleDeadlineRule 50 100 true (by decide)⟩

/-- C3 (counterexample): two identical fired Once rules differing only
in termination policy end differently — with no policy the rule stays
in the store, unpaused and unmarked (not terminal), while with
MaxOccurrences(1) it is deleted: the terminal transition of a Once rule
does depend on the termination policy, so the policy check is not
bypassed. -/
theorem C3_counterexample :
    (send_reminder (some sampleOnceNoPolicy) 1000 true).store ≠ none ∧
    (send_reminder (some sampleOnceNoPolicy) 1000 true).store.map Reminder.is_paused
      = some false ∧
    (send_reminder (some sampleOnceLimit1) 1000 true).store = none := by
  decide

/-- Firing a once-kind `Rem` always clears its `next_dt`
(`reschedule_after_fire` has no rescheduling branch for once), so
`job_fire` arms nothing and any stored rem is inert. -/
theorem job_fire_once_inert (r2 : Rem) (nowUtc : Int) (ok2 : Bool)
    (h3 : r2.kind = Kind2.once) (h4 : r2.paused = false) :
    (job_fire r2 nowUtc ok2).armed = false ∧
    ∀ r'', (job_fire r2 nowUtc ok2).store = some r'' → r''.next_dt = none := by
  have key : ∀ rm : Rem, rm.kind = Kind2.once →
      reschedule_after_fire rm nowUtc = { rm with next_dt := none } := by
    intro rm hk
    simp [reschedule_after_fire, hk]
  simp only [job_fire]
  rw [if_neg (show ¬(r2.paused = true) by simp [h4])]
  by_cases hE : r2.ending.kind = EKind.ekTimes
  · rw [if_pos hE]
    split
    · exact ⟨rfl, by intro r'' hcon; cases hcon⟩
    · split
      · exact ⟨rfl, by intro r'' hcon; cases hcon⟩
      · rw [key _ (show ({ r2 with
              left_times := some (truthyOr r2.left_times r2.ending.times - 1) } : Rem).kind
            = Kind2.once from h3)]
        exact ⟨rfl, by intro r'' hcon; cases hcon; rfl⟩
  · rw [if_neg hE]
    split
    · exact ⟨rfl, by intro r'' hcon; cases hcon⟩
    · split
      · exact ⟨rfl, by intro r'' hcon; cases hcon⟩
      · rw [key _ h3]
        exact ⟨rfl, by intro r'' hcon; cases hcon; rfl⟩

/-- C3 (amended): after its single fire, a Once rule is deleted from
the store exactly when its termination policy is satisfied at that
fire; otherwise it stays in the store un-deleted and un-paused — but in
either case no further timer is armed for it (its target instant is no
longer in the future), so it never fires again on its own.  In the
in-memory variant, a fired once-kind rem arms nothing and, when not
popped by its ending policy, is left with `next_dt` cleared. -/
theorem C3_amended_theorem (r : Reminder) (nowUtc : Int) (ok : Bool)
    (r2 : Rem) (ok2 : Bool)
    (h1 : r.kind = Kind.once) (h2 : r.params.run_utc ≤ nowUtc)
    (h3 : r2.kind = Kind2.once) (h4 : r2.paused = false) :
    ((send_reminder (some r) nowUtc ok).armed = none ∧
     ((send_reminder (some r) nowUtc ok).store = none ↔ finishedB r nowUtc = true)) ∧
    ((job_fire r2 nowUtc ok2).armed = false ∧
     ∀ r'', (job_fire r2 nowUtc ok2).store = some r'' → r''.next_dt = none) := by
  refine ⟨?_, job_fire_once_inert r2 nowUtc ok2 h3 h4⟩
  by_cases hf : finishedB r nowUtc = true
  · simp only [send_reminder]
    rw [if_pos ⟨hf, h1⟩]
    exact ⟨rfl, by simp [hf]⟩
  · simp only [send_reminder]
    rw [if_neg (fun hcon => hf hcon.1), if_neg hf]
    constructor
    · simp [schedule_next, h1, h2]
    · simp [hf]

/-- C3 witness: the amended statement at the concrete fired Once rule
with no policy (fire instant 1000) and a concrete once-kind rem. -/
theorem C3_amended_witness :
    (sampleOnceNoPolicy.kind = Kind.once ∧ sampleOnceNoPolicy.params.run_utc ≤ 1000 ∧
     sampleOnceRem.kind = Kind2.once ∧ sampleOnceRem.paused = false) ∧
    (((send_reminder (some sampleOnceNoPolicy) 1000 true).armed = none ∧
      ((send_reminder (some sampleOnceNoPolicy) 1000 true).store = none ↔
        finishedB sampleOnceNoPolicy 1000 = true)) ∧
     ((job_fire sampleOnceRem 1000 true).armed = false ∧
      ∀ r'', (job_fire sampleOnceRem 1000 true).store = some r'' →
        r''.next_dt = none)) :=
  ⟨⟨by decide, by decide, by decide, by decide⟩,
   C3_amended_theorem sampleOnceNoPolicy 1000 true sampleOnceRem true
     (by decide) (by decide) (by decide) (by decide)⟩

/-- C4 (counterexample): a Daily rule that reached its
MaxOccurrences(1) termination (sent = 1, marked paused — the code's
terminal state for periodic rules) is resurrected by the user-facing
resume operation: resume arms a fresh timer (day 1 at 09:00 = 118800),
and when that timer elapses the rule fires again — the notification is
attempted and the occurrence counter is pushed to 2, past its limit. -/
theorem C4_counterexample :
    ((resume_cb (some sampleDoneDaily) 43200).armed = some 118800) ∧
    ((send_reminder (resume_cb (some sampleDoneDaily) 43200).store 118800 true).notified
      = true) ∧
    ((send_reminder (resume_cb (some sampleDoneDaily) 43200).store 118800 true).countersOut.sent
      = 2) := by
  decide

/-- C4 (amended): a Once rule removed from the store on completion is
never resurrected — resume on a deleted rule id leaves the store empty
and arms nothing.  A periodic rule terminated by its policy, however,
is only marked paused, and resume un-pauses it and arms a fresh timer,
so it can fire again. -/
theorem C4_amended_theorem (nowUtc : Int) (r : Reminder) (hk : r.kind = Kind.daily) :
    resume_cb none nowUtc = ⟨none, none⟩ ∧
    (resume_cb (some r) nowUtc).store = some { r with is_paused := false } ∧
    ((resume_cb (some r) nowUtc).armed).isSome = true := by
  refine ⟨rfl, rfl, ?_⟩
  simp [resume_cb, schedule_next, hk]

/-- C4 witness: the amended statement at the concrete terminated Daily
rule, resumed at local noon of day 0. -/
theorem C4_amended_witness :
    (sampleDoneDaily.kind = Kind.daily) ∧
    (resume_cb none 43200 = ⟨none, none⟩ ∧
     (resume_cb (some sampleDoneDaily) 43200).store
       = some { sampleDoneDaily with is_paused := false } ∧
     ((resume_cb (some sampleDoneDaily) 43200).armed).isSome = true) :=
  ⟨by decide, C4_amended_theorem 43200 sampleDoneDaily (by decide)⟩
